import Mathlib

/-!
Verification of the LibAFL fuzzing-loop kernel: the feedback combinator
algebra (`src/libafl/src/feedbacks/mod.rs`) and the tuneable mutational
stage (`src/libafl/src/stages/tuneable.rs`).

Rust `Result<T, Error>` is embedded as `Except Err T`.  The mutable state
threaded by reference through the Rust code (`&mut S`, `&mut self`, …) is
made explicit: a function taking `&mut S` and returning `Result<T, Error>`
becomes `S → Except Err (T × S)`.
-/

namespace LibAFL

/-- The error kinds of `libafl::Error` that the modelled code can produce.
`fuel_exhausted` is a model artifact: it marks the cut-off of the
time-only mutation loop, which in the source iterates unboundedly
(`for _ in 1..`) until the wall clock passes the budget. -/
inductive Err where
  | illegal_state (msg : String)
  | key_not_found (msg : String)
  | fuel_exhausted
deriving DecidableEq, Repr

/-- Secondary exit classification carried by `ExitKind::Diff` (the payload is
irrelevant to every feedback verdict; only the variant tag is inspected). -/
inductive DiffExitKind where
  | observed
  | unobserved
deriving DecidableEq, Repr

/-- `ExitKind`: the exit classification an executor reports for one run. -/
inductive ExitKind where
  | ok
  | crash
  | timeout
  | diff (first second : DiffExitKind)
deriving DecidableEq, Repr

/-!
## Closure-level feedback logic

`FeedbackLogic::is_pair_interesting` in the source receives two closures
which invoke the children's `is_interesting` on the shared mutable context
`(state, manager, input, observers, exit_kind)`.  Here the mutable context
is a type parameter `σ`; the immutable arguments are closed over by the
child closures, exactly as in the source.
-/

/-- `LogicEagerOr::is_pair_interesting`:
`Ok(first(...)? | second(...)?)` — both closures run, then the verdicts are
or-ed (`|` on `bool` does not short-circuit). -/
def LogicEagerOr.is_pair_interesting {σ : Type}
    (first second : σ → Except Err (Bool × σ)) (s : σ) : Except Err (Bool × σ) :=
  match first s with
  | .error e => .error e
  | .ok (a, s1) =>
    match second s1 with
    | .error e => .error e
    | .ok (b, s2) => .ok (a || b, s2)

/-- `LogicFastOr::is_pair_interesting`: run `first`; if its verdict is true
return `Ok(true)` without running `second`, otherwise return `second`'s
result. -/
def LogicFastOr.is_pair_interesting {σ : Type}
    (first second : σ → Except Err (Bool × σ)) (s : σ) : Except Err (Bool × σ) :=
  match first s with
  | .error e => .error e
  | .ok (a, s1) => if a then .ok (true, s1) else second s1

/-- `LogicEagerAnd::is_pair_interesting`:
`Ok(first(...)? & second(...)?)` — both closures run, then the verdicts are
and-ed (`&` on `bool` does not short-circuit). -/
def LogicEagerAnd.is_pair_interesting {σ : Type}
    (first second : σ → Except Err (Bool × σ)) (s : σ) : Except Err (Bool × σ) :=
  match first s with
  | .error e => .error e
  | .ok (a, s1) =>
    match second s1 with
    | .error e => .error e
    | .ok (b, s2) => .ok (a && b, s2)

/-- `LogicFastAnd::is_pair_interesting`:
`Ok(first(...)? && second(...)?)` — `&&` short-circuits, so when `first`
returns false the `second` closure is never run and the result is
`Ok(false)`. -/
def LogicFastAnd.is_pair_interesting {σ : Type}
    (first second : σ → Except Err (Bool × σ)) (s : σ) : Except Err (Bool × σ) :=
  match first s with
  | .error e => .error e
  | .ok (a, s1) => if a then second s1 else .ok (false, s1)

/-!
## Deep embedding of the feedback tree

The concrete feedbacks of `feedbacks/mod.rs` with the `track_hit_feedbacks`
feature compiled in.  Each leaf that caches its last verdict carries an
`Option Bool` (the `last_result: Option<bool>` field).  `&mut self` is made
explicit: `is_interesting` returns the updated feedback next to the
verdict.
-/

/-- The four `FeedbackLogic` implementors used by `CombinedFeedback`. -/
inductive FL where
  | eagerOr
  | fastOr
  | eagerAnd
  | fastAnd
deriving DecidableEq, Repr

/-- `FeedbackLogic::name` for each implementor. -/
def FL.name : FL → String
  | .eagerOr => "Eager OR"
  | .fastOr => "Fast OR"
  | .eagerAnd => "Eager AND"
  | .fastAnd => "Fast AND"

/-- The feedback tree: `CrashFeedback`, `TimeoutFeedback`,
`DiffExitKindFeedback`, `TimeFeedback` (holding its observer handle's
name), `ConstFeedback`, `NotFeedback` and `CombinedFeedback` over one of
the four logics. -/
inductive Fb where
  | crash (last : Option Bool)
  | timeoutFb (last : Option Bool)
  | diffFb (last : Option Bool)
  | timeFb (handle : String)
  | constFb (b : Bool)
  | notFb (first : Fb)
  | combined (fl : FL) (first second : Fb)
deriving DecidableEq, Repr

/-- `Named::name` of each feedback.  `CombinedFeedback::new` and
`NotFeedback::new` compute the stored name from the children's names; here
the same string is recomputed on demand. -/
def Fb.name : Fb → String
  | .crash _ => "CrashFeedback"
  | .timeoutFb _ => "TimeoutFeedback"
  | .diffFb _ => "DiffExitKindFeedback"
  | .timeFb handle => handle
  | .constFb _ => "ConstFeedback"
  | .notFb a => "Not(" ++ a.name ++ ")"
  | .combined fl a b => fl.name ++ " (" ++ a.name ++ "," ++ b.name ++ ")"

/-- `premature_last_result_err()`: the error returned when `last_result` is
called before the feedback has run. -/
def premature_last_result_err : Err :=
  .illegal_state "last_result called before Feedback was run"

/-- `Feedback::is_interesting` of every modelled feedback.  The leaves look
only at the exit kind and record their verdict in `last_result`;
`NotFeedback` negates its child; `CombinedFeedback` dispatches on its
`FeedbackLogic` exactly as the four `is_pair_interesting` impls do, the
child closures being the children's own `is_interesting`. -/
def Fb.is_interesting : Fb → ExitKind → Except Err (Bool × Fb)
  | .crash _, ek =>
    let res := match ek with | .crash => true | _ => false
    .ok (res, .crash (some res))
  | .timeoutFb _, ek =>
    let res := match ek with | .timeout => true | _ => false
    .ok (res, .timeoutFb (some res))
  | .diffFb _, ek =>
    let res := match ek with | .diff _ _ => true | _ => false
    .ok (res, .diffFb (some res))
  | .timeFb handle, _ => .ok (false, .timeFb handle)
  | .constFb b, _ => .ok (b, .constFb b)
  | .notFb a, ek =>
    match a.is_interesting ek with
    | .error e => .error e
    | .ok (r, a2) => .ok (!r, .notFb a2)
  | .combined .eagerOr a b, ek =>
    match a.is_interesting ek with
    | .error e => .error e
    | .ok (ra, a2) =>
      match b.is_interesting ek with
      | .error e => .error e
      | .ok (rb, b2) => .ok (ra || rb, .combined .eagerOr a2 b2)
  | .combined .fastOr a b, ek =>
    match a.is_interesting ek with
    | .error e => .error e
    | .ok (ra, a2) =>
      if ra then .ok (true, .combined .fastOr a2 b)
      else
        match b.is_interesting ek with
        | .error e => .error e
        | .ok (rb, b2) => .ok (rb, .combined .fastOr a2 b2)
  | .combined .eagerAnd a b, ek =>
    match a.is_interesting ek with
    | .error e => .error e
    | .ok (ra, a2) =>
      match b.is_interesting ek with
      | .error e => .error e
      | .ok (rb, b2) => .ok (ra && rb, .combined .eagerAnd a2 b2)
  | .combined .fastAnd a b, ek =>
    match a.is_interesting ek with
    | .error e => .error e
    | .ok (ra, a2) =>
      if ra then
        match b.is_interesting ek with
        | .error e => .error e
        | .ok (rb, b2) => .ok (rb, .combined .fastAnd a2 b2)
      else .ok (false, .combined .fastAnd a2 b)

/-- `Feedback::last_result` of every modelled feedback.  The cached leaves
fail with `premature_last_result_err` while their cache is `None`;
`TimeFeedback` always answers `Ok(false)` and `ConstFeedback` its constant.
For combined feedbacks, `FeedbackLogic::last_result` combines the
children's results: the eager variants propagate either child's error, the
fast variants short-circuit inside `Ok(first || second?)` resp.
`Ok(first && second?)` and so never look at the second child once the
first decides. -/
def Fb.last_result : Fb → Except Err Bool
  | .crash last =>
    match last with
    | some r => .ok r
    | none => .error premature_last_result_err
  | .timeoutFb last =>
    match last with
    | some r => .ok r
    | none => .error premature_last_result_err
  | .diffFb last =>
    match last with
    | some r => .ok r
    | none => .error premature_last_result_err
  | .timeFb _ => .ok false
  | .constFb b => .ok b
  | .notFb a =>
    match a.last_result with
    | .error e => .error e
    | .ok r => .ok (!r)
  | .combined .eagerOr a b =>
    match a.last_result with
    | .error e => .error e
    | .ok ra =>
      match b.last_result with
      | .error e => .error e
      | .ok rb => .ok (ra || rb)
  | .combined .fastOr a b =>
    match a.last_result with
    | .error e => .error e
    | .ok true => .ok true
    | .ok false => b.last_result
  | .combined .eagerAnd a b =>
    match a.last_result with
    | .error e => .error e
    | .ok ra =>
      match b.last_result with
      | .error e => .error e
      | .ok rb => .ok (ra && rb)
  | .combined .fastAnd a b =>
    match a.last_result with
    | .error e => .error e
    | .ok false => .ok false
    | .ok true => b.last_result

/-- `Feedback::append_hit_feedbacks`.  The `&mut Vec` of hit names is made
explicit as list-in/list-out.  Leaves and `NotFeedback` use the trait
default (push own name when `last_result` is true); `CombinedFeedback`
dispatches to `FeedbackLogic::append_hit_feedbacks`, where `LogicEagerOr`
delegates to `LogicFastOr`'s rule. -/
def Fb.append_hit_feedbacks : Fb → List String → Except Err (List String)
  | .combined .eagerOr a b, l =>
    -- `LogicEagerOr::append_hit_feedbacks` delegates to `LogicFastOr`'s:
    -- the body below is the same rule as the `.fastOr` case.
    match a.last_result with
    | .error e => .error e
    | .ok true => a.append_hit_feedbacks l
    | .ok false =>
      match b.last_result with
      | .error e => .error e
      | .ok true => b.append_hit_feedbacks l
      | .ok false => .ok l
  | .combined .fastOr a b, l =>
    match a.last_result with
    | .error e => .error e
    | .ok true => a.append_hit_feedbacks l
    | .ok false =>
      match b.last_result with
      | .error e => .error e
      | .ok true => b.append_hit_feedbacks l
      | .ok false => .ok l
  | .combined .eagerAnd a b, l =>
    match a.last_result with
    | .error e => .error e
    | .ok ra =>
      match b.last_result with
      | .error e => .error e
      | .ok rb =>
        if ra && rb then
          match a.append_hit_feedbacks l with
          | .error e => .error e
          | .ok l1 => b.append_hit_feedbacks l1
        else .ok l
  | .combined .fastAnd a b, l =>
    match a.last_result with
    | .error e => .error e
    | .ok false => .ok l
    | .ok true =>
      match b.last_result with
      | .error e => .error e
      | .ok false => .ok l
      | .ok true =>
        match a.append_hit_feedbacks l with
        | .error e => .error e
        | .ok l1 => b.append_hit_feedbacks l1
  | f, l =>
    match f.last_result with
    | .error e => .error e
    | .ok true => .ok (l ++ [f.name])
    | .ok false => .ok l

/-- A testcase as far as the modelled feedbacks touch it: the optional
execution time that `TimeFeedback::append_metadata` fills in. -/
structure Testcase where
  exec_time : Option Nat
deriving DecidableEq, Repr

/-- `Feedback::append_metadata`.  `observers` maps an observer handle name
to the `TimeObserver`'s `last_runtime` (the outer `Option` is the tuple
lookup, which `TimeFeedback` unwraps; the panic on a missing observer is
modelled as an error).  Leaves other than `TimeFeedback` use the no-op
default; `NotFeedback` delegates to its child; `CombinedFeedback` calls
both children in order. -/
def Fb.append_metadata (observers : String → Option (Option Nat)) :
    Fb → Testcase → Except Err Testcase
  | .timeFb handle, tc =>
    match observers handle with
    | none => .error (.key_not_found handle)
    | some rt => .ok { tc with exec_time := rt }
  | .notFb a, tc => a.append_metadata observers tc
  | .combined _ a b, tc =>
    match a.append_metadata observers tc with
    | .error e => .error e
    | .ok tc1 => b.append_metadata observers tc1
  | _, tc => .ok tc

/-- `Feedback::discard_metadata`.  Every modelled leaf is a no-op;
`NotFeedback` delegates to its child; `CombinedFeedback` calls both
children in order. -/
def Fb.discard_metadata : Fb → Except Err Unit
  | .notFb a => a.discard_metadata
  | .combined _ a b =>
    match a.discard_metadata with
    | .error e => .error e
    | .ok _ => b.discard_metadata
  | _ => .ok ()

/-- `CrashFeedback::new()`: the `last_result` cache starts out `None`. -/
def CrashFeedback.new : Fb := .crash none

/-- `TimeoutFeedback::new()`: the `last_result` cache starts out `None`. -/
def TimeoutFeedback.new : Fb := .timeoutFb none

/-- `DiffExitKindFeedback::new()`: the `last_result` cache starts out
`None`. -/
def DiffExitKindFeedback.new : Fb := .diffFb none

/-- `TimeFeedback::new(observer)`: stores the observer's handle. -/
def TimeFeedback.new (handle : String) : Fb := .timeFb handle

/-- `ConstFeedback::new(val)`. -/
def ConstFeedback.new (val : Bool) : Fb := .constFb val

/-- `NotFeedback::new(first)`. -/
def NotFeedback.new (first : Fb) : Fb := .notFb first

/-!
## Tuneable mutational stage (`stages/tuneable.rs`)

Durations and time stamps are nanosecond counts (`Nat`); `current_time()`
is modelled as a clock stream `clock : Nat → Nat` giving the value of the
`j`-th call (`clock 0` is the `start_time` sample, the `j`-th loop-head
check samples `clock j`).  `Duration` subtraction on `Nat` is truncated,
which matches `current_time() - start_time` never being negative for a
monotonic clock.
-/

/-- `MutationResult`, returned by `Mutator::mutate`. -/
inductive MutationResult where
  | mutated
  | skipped
deriving DecidableEq, Repr

/-- The portions of the fuzzer `State` that `perform_mutation` can touch:
the RNG, the execution counter, and the two corpora (each a list of
abstract input ids). -/
structure FuzzState where
  rand : Nat
  executions : Nat
  corpus : List Nat
  solutions : List Nat
deriving DecidableEq, Repr

/-- `TuneableMutationalStage::perform_mutation`: clone the input, run the
mutator; on `Skipped` return `Ok` at once; otherwise lower the input via
`try_transform_into`, evaluate it, then run the mutator's and the
post-handle's `post_exec` in that order.  The collaborators `mutate`
(`self.mutator_mut().mutate`), `try_transform_into`, `evaluate_input`
(returning the verdict and the optional new corpus id) and the two
`post_exec` hooks are parameters; `ι` is the transformed input type, `β`
the untransformed corpus input type and `π` the post-handle type. -/
def perform_mutation {ι β π : Type}
    (mutate : FuzzState → ι → Except Err (MutationResult × FuzzState × ι))
    (try_transform_into : FuzzState → ι → Except Err (β × π))
    (evaluate_input : FuzzState → β → Except Err (FuzzState × Bool × Option Nat))
    (mutator_post_exec : FuzzState → Option Nat → Except Err FuzzState)
    (post_post_exec : π → FuzzState → Option Nat → Except Err FuzzState)
    (input : ι) (s : FuzzState) : Except Err FuzzState :=
  match mutate s input with
  | .error e => .error e
  | .ok (mres, s1, input1) =>
    if mres = MutationResult.skipped then .ok s1
    else
      match try_transform_into s1 input1 with
      | .error e => .error e
      | .ok (untransformed, post) =>
        match evaluate_input s1 untransformed with
        | .error e => .error e
        | .ok (s2, _, corpus_id) =>
          match mutator_post_exec s2 corpus_id with
          | .error e => .error e
          | .ok s3 => post_post_exec post s3 corpus_id

/-- `TuneableMutationalStage::iterations`: `1 + rand.below(nonzero!(
DEFAULT_MUTATIONAL_MAX_ITERATIONS))`.  `rand_draw` stands for the value
returned by `Rand::below`, which lies below
`DEFAULT_MUTATIONAL_MAX_ITERATIONS`. -/
def iterations (rand_draw : Nat) : Nat := 1 + rand_draw

/-- The plain `for _ in 1..=n` loop body of `perform_mutational`: run
`body` `n` times, stopping at the first error. -/
def iterLoop {α : Type} (body : α → Except Err α) : Nat → α → Except Err α
  | 0, s => .ok s
  | n + 1, s =>
    match body s with
    | .error e => .error e
    | .ok s1 => iterLoop body n s1

/-- The `(Some fuzz_time, Some iters)` loop of `perform_mutational`:
`for _ in 1..=n { if current_time() - start_time >= fuzz_time - break -
body }`.  `n` is the remaining iteration count and `j` the index of the
next clock sample. -/
def timedIterLoop {α : Type} (clock : Nat → Nat) (start ft : Nat)
    (body : α → Except Err α) : Nat → Nat → α → Except Err α
  | 0, _, s => .ok s
  | n + 1, j, s =>
    if ft ≤ clock j - start then .ok s
    else
      match body s with
      | .error e => .error e
      | .ok s1 => timedIterLoop clock start ft body n (j + 1) s1

/-- The `(Some fuzz_time, None)` loop of `perform_mutational`:
`for _ in 1.. { if current_time() - start_time >= fuzz_time - break -
body }`.  The source loop is unbounded and exits only through the time
check; `fuel` cuts the model off, reporting `Err.fuel_exhausted` where the
source would still be running. -/
def timedLoop {α : Type} (clock : Nat → Nat) (start ft : Nat)
    (body : α → Except Err α) : Nat → Nat → α → Except Err α
  | 0, _, _ => .error .fuel_exhausted
  | fuel + 1, j, s =>
    if ft ≤ clock j - start then .ok s
    else
      match body s with
      | .error e => .error e
      | .ok s1 => timedLoop clock start ft body fuel (j + 1) s1

/-- `TuneableMutationalStage::perform_mutational`.  `fuzz_time` and
`iters` are the values read from `TuneableMutationalStageMetadata`;
`try_transform_from` is the result of `I::try_transform_from` on the
current testcase (`none` models the `else return Ok(())` arm);
`rand_draw` and `execs_since_progress_start` are the values the
`(None, None)` arm obtains from the RNG and the restart helper; `body
input` stands for one `self.perform_mutation(fuzzer, executor, state,
manager, &input)` call. -/
def perform_mutational {α ι : Type} (clock : Nat → Nat) (fuel : Nat)
    (rand_draw execs_since_progress_start : Nat)
    (fuzz_time iters : Option Nat) (try_transform_from : Option ι)
    (body : ι → α → Except Err α) (s : α) : Except Err α :=
  match try_transform_from with
  | none => .ok s
  | some input =>
    match fuzz_time, iters with
    | some ft, some it => timedIterLoop clock (clock 0) ft (body input) it 1 s
    | some ft, none => timedLoop clock (clock 0) ft (body input) fuel 1 s
    | none, some it => iterLoop (body input) it s
    | none, none =>
      iterLoop (body input) (iterations rand_draw - execs_since_progress_start) s

/-!
## Tuneable stage metadata (`stages/tuneable.rs`, named-metadata map)
-/

/-- `TuneableMutationalStageMetadata`: the per-stage tuning knobs stored
in the state's named-metadata map. -/
structure TuneableMutationalStageMetadata where
  iters : Option Nat
  fuzz_time : Option Nat
deriving DecidableEq, Repr

/-- `TuneableMutationalStageMetadata::default()`: both knobs unset. -/
def TuneableMutationalStageMetadata.default : TuneableMutationalStageMetadata :=
  { iters := none, fuzz_time := none }

/-- The state's named-metadata map, restricted to the one metadata type
the tuneable stage uses: an association list from stage names to
`TuneableMutationalStageMetadata`. -/
def NamedMetadataMap : Type := List (String × TuneableMutationalStageMetadata)

/-- Lookup in the named-metadata map. -/
def NamedMetadataMap.get : NamedMetadataMap → String →
    Option TuneableMutationalStageMetadata
  | [], _ => none
  | (k, v) :: rest, name => if k = name then some v else NamedMetadataMap.get rest name

/-- Modelled from the spec: `HasNamedMetadata::named_metadata_or_insert_with`
(the state module is not under `src/`; §3 of the spec describes the named
map as "key = string, value = typed instance" and §4.3 stores the stage
configuration "under a caller-chosen string key").  Returns the entry under
`name`, inserting the value produced by the closure first when, and only
when, no entry exists. -/
def named_metadata_or_insert_with (m : NamedMetadataMap) (name : String)
    (dflt : Unit → TuneableMutationalStageMetadata) :
    TuneableMutationalStageMetadata × NamedMetadataMap :=
  match m.get name with
  | some v => (v, m)
  | none => (dflt (), (name, dflt ()) :: m)

/-- `STD_TUNEABLE_MUTATIONAL_STAGE_NAME`. -/
def STD_TUNEABLE_MUTATIONAL_STAGE_NAME : String := "TuneableMutationalStage"

/-- `TuneableMutationalStage::transforming`, restricted to its effect on
the named-metadata map: `named_metadata_or_insert_with(name, default)`,
discarding the returned reference. -/
def TuneableMutationalStage.transforming (m : NamedMetadataMap) (name : String) :
    NamedMetadataMap :=
  (named_metadata_or_insert_with m name fun _ => TuneableMutationalStageMetadata.default).2

/-- `TuneableMutationalStage::new`: `transforming` under the default
name. -/
def TuneableMutationalStage.new (m : NamedMetadataMap) : NamedMetadataMap :=
  TuneableMutationalStage.transforming m STD_TUNEABLE_MUTATIONAL_STAGE_NAME

/-- `TuneableMutationalStage::with_name`: `transforming` under the given
name. -/
def TuneableMutationalStage.with_name (m : NamedMetadataMap) (name : String) :
    NamedMetadataMap :=
  TuneableMutationalStage.transforming m name

/-!
## Claims
-/

/-- C1: for every pair of child verdicts `a`, `b` returned without error by
the children's `is_interesting`, the OR combinators return `Ok(a || b)` and
the AND combinators `Ok(a && b)`; for the fast variants the skipped
child's verdict cannot change the verdict. -/
theorem C1_combinator_truth_tables {σ : Type}
    (first second : σ → Except Err (Bool × σ)) (s s1 s2 : σ) (a b : Bool)
    (h1 : first s = .ok (a, s1)) (h2 : second s1 = .ok (b, s2)) :
    LogicEagerOr.is_pair_interesting first second s = .ok (a || b, s2) ∧
    (LogicFastOr.is_pair_interesting first second s).map Prod.fst = .ok (a || b) ∧
    LogicEagerAnd.is_pair_interesting first second s = .ok (a && b, s2) ∧
    (LogicFastAnd.is_pair_interesting first second s).map Prod.fst = .ok (a && b) := by
  refine ⟨?_, ?_, ?_, ?_⟩ <;>
    simp only [LogicEagerOr.is_pair_interesting, LogicFastOr.is_pair_interesting,
      LogicEagerAnd.is_pair_interesting, LogicFastAnd.is_pair_interesting, h1] <;>
    cases a <;> simp [h2, Except.map]

/-- Witness for C1 at concrete children over `σ := Nat`. -/
theorem C1_combinator_truth_tables_witness :
    LogicEagerOr.is_pair_interesting (fun n : Nat => .ok (true, n + 1))
      (fun n : Nat => .ok (false, n + 2)) 0 = .ok (true, 3) ∧
    (LogicFastOr.is_pair_interesting (fun n : Nat => .ok (true, n + 1))
      (fun n : Nat => .ok (false, n + 2)) 0).map Prod.fst = .ok true ∧
    LogicEagerAnd.is_pair_interesting (fun n : Nat => .ok (true, n + 1))
      (fun n : Nat => .ok (false, n + 2)) 0 = .ok (false, 3) ∧
    (LogicFastAnd.is_pair_interesting (fun n : Nat => .ok (true, n + 1))
      (fun n : Nat => .ok (false, n + 2)) 0).map Prod.fst = .ok false :=
  C1_combinator_truth_tables _ _ 0 1 3 true false rfl rfl

/-- C2: with counter-instrumented stub children over the state
`(calls to first, calls to second)`, `LogicFastOr` leaves the second
child's counter untouched when the first child's verdict is true,
`LogicFastAnd` leaves it untouched when the first child's verdict is
false, and both eager variants bump both counters for every pair of
verdicts. -/
theorem C2_short_circuit_policy (a b : Bool) (c1 c2 : Nat) :
    LogicFastOr.is_pair_interesting
      (fun p : Nat × Nat => .ok (true, (p.1 + 1, p.2)))
      (fun p : Nat × Nat => .ok (b, (p.1, p.2 + 1))) (c1, c2)
      = .ok (true, (c1 + 1, c2)) ∧
    LogicFastAnd.is_pair_interesting
      (fun p : Nat × Nat => .ok (false, (p.1 + 1, p.2)))
      (fun p : Nat × Nat => .ok (b, (p.1, p.2 + 1))) (c1, c2)
      = .ok (false, (c1 + 1, c2)) ∧
    LogicEagerOr.is_pair_interesting
      (fun p : Nat × Nat => .ok (a, (p.1 + 1, p.2)))
      (fun p : Nat × Nat => .ok (b, (p.1, p.2 + 1))) (c1, c2)
      = .ok (a || b, (c1 + 1, c2 + 1)) ∧
    LogicEagerAnd.is_pair_interesting
      (fun p : Nat × Nat => .ok (a, (p.1 + 1, p.2)))
      (fun p : Nat × Nat => .ok (b, (p.1, p.2 + 1))) (c1, c2)
      = .ok (a && b, (c1 + 1, c2 + 1)) :=
  ⟨rfl, rfl, rfl, rfl⟩

/-- C6: for both the fast and the eager OR combinator, `append_hit_feedbacks`
reports only the first child's hit names when the first child's
`last_result` is true, only the second child's when the first is false and
the second true, and nothing when both are false. -/
theorem C6_or_hit_attribution (a b : Fb) (l : List String) :
    (a.last_result = .ok true →
      (Fb.combined .fastOr a b).append_hit_feedbacks l = a.append_hit_feedbacks l ∧
      (Fb.combined .eagerOr a b).append_hit_feedbacks l = a.append_hit_feedbacks l) ∧
    (a.last_result = .ok false → b.last_result = .ok true →
      (Fb.combined .fastOr a b).append_hit_feedbacks l = b.append_hit_feedbacks l ∧
      (Fb.combined .eagerOr a b).append_hit_feedbacks l = b.append_hit_feedbacks l) ∧
    (a.last_result = .ok false → b.last_result = .ok false →
      (Fb.combined .fastOr a b).append_hit_feedbacks l = .ok l ∧
      (Fb.combined .eagerOr a b).append_hit_feedbacks l = .ok l) := by
  refine ⟨fun h1 => ?_, fun h1 h2 => ?_, fun h1 h2 => ?_⟩ <;>
    simp [Fb.append_hit_feedbacks, h1, *]

/-- Witness for C6 on constant-feedback children and an empty hit list. -/
theorem C6_or_hit_attribution_witness :
    ((Fb.combined .fastOr (.constFb true) (.constFb false)).append_hit_feedbacks []
        = (Fb.constFb true).append_hit_feedbacks [] ∧
      (Fb.combined .eagerOr (.constFb true) (.constFb false)).append_hit_feedbacks []
        = (Fb.constFb true).append_hit_feedbacks []) ∧
    ((Fb.combined .fastOr (.constFb false) (.constFb true)).append_hit_feedbacks []
        = (Fb.constFb true).append_hit_feedbacks [] ∧
      (Fb.combined .eagerOr (.constFb false) (.constFb true)).append_hit_feedbacks []
        = (Fb.constFb true).append_hit_feedbacks []) ∧
    ((Fb.combined .fastOr (.constFb false) (.constFb false)).append_hit_feedbacks []
        = .ok [] ∧
      (Fb.combined .eagerOr (.constFb false) (.constFb false)).append_hit_feedbacks []
        = .ok []) :=
  ⟨(C6_or_hit_attribution (.constFb true) (.constFb false) []).1 rfl,
   (C6_or_hit_attribution (.constFb false) (.constFb true) []).2.1 rfl rfl,
   (C6_or_hit_attribution (.constFb false) (.constFb false) []).2.2 rfl rfl⟩

/-- C7 counterexample: a freshly constructed `TimeFeedback` does not fail
on `last_result` — it answers `Ok(false)` — and a fresh
`ConstFeedback::True` answers `Ok(true)`, contradicting the claim that
every leaf fails with an illegal-state error before its first
`is_interesting` call. -/
theorem C7_counterexample_time_const_last_result :
    (TimeFeedback.new "time").last_result = .ok false ∧
    (TimeFeedback.new "time").last_result ≠ .error premature_last_result_err ∧
    (ConstFeedback.new true).last_result = .ok true :=
  ⟨rfl, by simp [TimeFeedback.new, Fb.last_result], rfl⟩

/-- C7 amended: the cached leaves (`CrashFeedback`, `TimeoutFeedback`,
`DiffExitKindFeedback`) fail with the illegal-state error
`premature_last_result_err` when `last_result` is called before the first
`is_interesting` call, while `TimeFeedback` answers `Ok(false)` and
`ConstFeedback` its constant verdict. -/
theorem C7_premature_last_result :
    CrashFeedback.new.last_result = .error premature_last_result_err ∧
    TimeoutFeedback.new.last_result = .error premature_last_result_err ∧
    DiffExitKindFeedback.new.last_result = .error premature_last_result_err ∧
    (∀ handle : String, (TimeFeedback.new handle).last_result = .ok false) ∧
    (∀ val : Bool, (ConstFeedback.new val).last_result = .ok val) :=
  ⟨rfl, rfl, rfl, fun _ => rfl, fun _ => rfl⟩

/-- C8: `NotFeedback(NotFeedback(F))` is observationally equivalent to `F`:
same `is_interesting` verdict, identical `append_metadata` and
`discard_metadata` behaviour, and the same `last_result`. -/
theorem C8_not_not_equivalence (f : Fb) (ek : ExitKind)
    (observers : String → Option (Option Nat)) (tc : Testcase) :
    ((NotFeedback.new (NotFeedback.new f)).is_interesting ek).map Prod.fst
      = (f.is_interesting ek).map Prod.fst ∧
    (NotFeedback.new (NotFeedback.new f)).append_metadata observers tc
      = f.append_metadata observers tc ∧
    (NotFeedback.new (NotFeedback.new f)).discard_metadata = f.discard_metadata ∧
    (NotFeedback.new (NotFeedback.new f)).last_result = f.last_result := by
  refine ⟨?_, ?_, ?_, ?_⟩
  · cases h : f.is_interesting ek with
    | error e => simp [NotFeedback.new, Fb.is_interesting, h, Except.map]
    | ok p => simp [NotFeedback.new, Fb.is_interesting, h, Except.map]
  · simp [NotFeedback.new, Fb.append_metadata]
  · simp [NotFeedback.new, Fb.discard_metadata]
  · cases h : f.last_result with
    | error e => simp [NotFeedback.new, Fb.last_result, h]
    | ok r => simp [NotFeedback.new, Fb.last_result, h]

/-- Running the iteration loop with a body that always succeeds with `f`
applies `f` exactly `n` times. -/
theorem iterLoop_pure {α : Type} (f : α → α) :
    ∀ (n : Nat) (s : α), iterLoop (fun s => .ok (f s)) n s = .ok (f^[n] s)
  | 0, _ => rfl
  | n + 1, s => by
    simp [iterLoop, iterLoop_pure f n (f s), Function.iterate_succ_apply]

/-- A body that returns its state unchanged makes the iteration loop a
no-op. -/
theorem iterLoop_fixed {α : Type} (body : α → Except Err α)
    (h : ∀ s, body s = .ok s) : ∀ (n : Nat) (s : α), iterLoop body n s = .ok s
  | 0, _ => rfl
  | n + 1, s => by simp [iterLoop, h s, iterLoop_fixed body h n s]

/-- With a zero time budget the bounded timed loop exits at the first
loop-head check, before any body call. -/
theorem timedIterLoop_ft_zero {α : Type} (clock : Nat → Nat) (start : Nat)
    (body : α → Except Err α) :
    ∀ (n j : Nat) (s : α), timedIterLoop clock start 0 body n j s = .ok s
  | 0, _, _ => rfl
  | _ + 1, _, _ => by simp [timedIterLoop]

/-- With a zero time budget the unbounded timed loop exits at the first
loop-head check, before any body call, for any positive fuel. -/
theorem timedLoop_ft_zero {α : Type} (clock : Nat → Nat) (start : Nat)
    (body : α → Except Err α) (fuel : Nat) (hfuel : 1 ≤ fuel) (j : Nat) (s : α) :
    timedLoop clock start 0 body fuel j s = .ok s := by
  match fuel, hfuel with
  | f + 1, _ => simp [timedLoop]

/-- The bounded timed loop with an always-succeeding body applies the body
some number of times bounded by the iteration cap. -/
theorem timedIterLoop_pure_bound {α : Type} (clock : Nat → Nat) (start ft : Nat)
    (f : α → α) :
    ∀ (n j : Nat) (s : α), ∃ k, k ≤ n ∧
      timedIterLoop clock start ft (fun s => .ok (f s)) n j s = .ok (f^[k] s)
  | 0, _, s => ⟨0, Nat.le_refl 0, rfl⟩
  | n + 1, j, s => by
    by_cases hc : ft ≤ clock j - start
    · exact ⟨0, Nat.zero_le _, by simp [timedIterLoop, hc]⟩
    · obtain ⟨k, hk, hres⟩ := timedIterLoop_pure_bound clock start ft f n (j + 1) (f s)
      exact ⟨k + 1, Nat.succ_le_succ hk,
        by simp [timedIterLoop, hc, hres, Function.iterate_succ_apply]⟩

/-- C3: in the randomized-budget arm (neither `iters` nor `fuzz_time`
set), the drawn budget `B = iterations rand_draw` lies in
`[1, DEFAULT_MUTATIONAL_MAX_ITERATIONS]`, `perform_mutational` performs
exactly `B - execs_since_progress_start` iterations (`Nat` subtraction is
saturating), and when the already-attributed executions `e` do not exceed
the budget, `e` plus the further iterations add up to exactly `B`, so the
run's total never exceeds `B`. -/
theorem C3_randomized_budget {α ι : Type}
    (MAX_ITERATIONS rand_draw e : Nat) (clock : Nat → Nat) (fuel : Nat)
    (input : ι) (f : α → α) (s : α) (hdraw : rand_draw < MAX_ITERATIONS) :
    (1 ≤ iterations rand_draw ∧ iterations rand_draw ≤ MAX_ITERATIONS) ∧
    perform_mutational clock fuel rand_draw e none none (some input)
      (fun _ s => .ok (f s)) s = .ok (f^[iterations rand_draw - e] s) ∧
    (e ≤ iterations rand_draw →
      e + (iterations rand_draw - e) = iterations rand_draw) := by
  refine ⟨⟨Nat.le_add_right 1 rand_draw, ?_⟩, ?_, fun he => Nat.add_sub_cancel' he⟩
  · simpa [iterations, Nat.add_comm] using Nat.succ_le_of_lt hdraw
  · simp [perform_mutational, iterLoop_pure]

/-- Witness for C3: budget drawn as `1 + 4 = 5` out of a cap of `8`, with
`2` executions already attributed, performs `3` further iterations. -/
theorem C3_randomized_budget_witness :
    (1 ≤ iterations 4 ∧ iterations 4 ≤ 8) ∧
    perform_mutational (fun _ => 0) 0 4 2 none none (some ())
      (fun _ s => .ok (s + 1)) 0 = .ok ((fun s => s + 1)^[iterations 4 - 2] 0) ∧
    (2 ≤ iterations 4 → 2 + (iterations 4 - 2) = iterations 4) :=
  C3_randomized_budget 8 4 2 (fun _ => 0) 0 () (fun s => s + 1) 0 (by decide)

/-- C4: with `iters = Some n` and `fuzz_time = None` and a successful
transform, `perform_mutational` invokes the mutation body exactly `n`
times and succeeds; with `n = 0` it performs zero mutations and returns
success. -/
theorem C4_fixed_iters {α ι : Type} (clock : Nat → Nat)
    (fuel rand_draw e n : Nat) (input : ι) (f : α → α) (s : α) :
    perform_mutational clock fuel rand_draw e none (some n) (some input)
      (fun _ s => .ok (f s)) s = .ok (f^[n] s) ∧
    perform_mutational clock fuel rand_draw e none (some 0) (some input)
      (fun _ s => .ok (f s)) s = .ok s := by
  constructor
  · simp [perform_mutational, iterLoop_pure]
  · simp [perform_mutational, iterLoop]

/-- C5: with `fuzz_time = Some 0` the stage performs zero mutations and
returns success — in both the `(Some 0, Some it)` and the
`(Some 0, None)` arm, for any clock and any mutation body — and in the
both-set arm the number of body invocations is bounded above by `iters`
no matter how large the time budget is. -/
theorem C5_fuzz_time_zero_and_iter_bound {α ι : Type} (clock : Nat → Nat)
    (fuel rand_draw e : Nat) (hfuel : 1 ≤ fuel) (it ft : Nat) (input : ι)
    (body : α → Except Err α) (f : α → α) (s : α) :
    perform_mutational clock fuel rand_draw e (some 0) (some it) (some input)
      (fun _ => body) s = .ok s ∧
    perform_mutational clock fuel rand_draw e (some 0) none (some input)
      (fun _ => body) s = .ok s ∧
    (∃ k, k ≤ it ∧
      perform_mutational clock fuel rand_draw e (some ft) (some it) (some input)
        (fun _ s => .ok (f s)) s = .ok (f^[k] s)) := by
  refine ⟨?_, ?_, ?_⟩
  · simp [perform_mutational, timedIterLoop_ft_zero]
  · simp [perform_mutational, timedLoop_ft_zero clock (clock 0) body fuel hfuel]
  · simpa [perform_mutational] using
      timedIterLoop_pure_bound clock (clock 0) ft f it 1 s

/-- Witness for C5: zero time budget performs no iterations even with a
mutating body and an iteration cap of `3`; with a long budget the
invocation count stays below the cap `2`. -/
theorem C5_fuzz_time_zero_and_iter_bound_witness :
    perform_mutational (fun _ => 0) 1 0 0 (some 0) (some 3) (some ())
      (fun _ (s : Nat) => .ok (s + 1)) 0 = .ok 0 ∧
    perform_mutational (fun _ => 0) 1 0 0 (some 0) none (some ())
      (fun _ (s : Nat) => .ok (s + 1)) 0 = .ok 0 ∧
    (∃ k, k ≤ 2 ∧
      perform_mutational (fun _ => 0) 1 0 0 (some 1000) (some 2) (some ())
        (fun _ (s : Nat) => .ok (s + 1)) 0 = .ok ((fun s => s + 1)^[k] 0)) :=
  C5_fuzz_time_zero_and_iter_bound (fun _ => 0) 1 0 0 (Nat.le_refl 1) 2 1000 ()
    (fun s => .ok (s + 1)) (fun s => s + 1) 0

/-- C9: when the mutator answers `Skipped`, `perform_mutation` returns
`Ok` with the state exactly as the mutator left it, for every transform,
evaluator and post-exec collaborator (none of them is consulted); and a
stage whose mutator skips every input and leaves the state untouched
completes its fixed-iteration run successfully with the execution
counter, main corpus and solutions corpus unchanged. -/
theorem C9_skipped_mutation_frame {ι β π : Type}
    (mutate : FuzzState → ι → Except Err (MutationResult × FuzzState × ι))
    (try_transform_into : FuzzState → ι → Except Err (β × π))
    (evaluate_input : FuzzState → β → Except Err (FuzzState × Bool × Option Nat))
    (mutator_post_exec : FuzzState → Option Nat → Except Err FuzzState)
    (post_post_exec : π → FuzzState → Option Nat → Except Err FuzzState)
    (input : ι) :
    (∀ (s s1 : FuzzState) (input1 : ι),
      mutate s input = .ok (.skipped, s1, input1) →
      perform_mutation mutate try_transform_into evaluate_input
        mutator_post_exec post_post_exec input s = .ok s1) ∧
    ((∀ t i, mutate t i = .ok (.skipped, t, i)) →
      ∀ (clock : Nat → Nat) (fuel rand_draw e n : Nat) (s : FuzzState),
        ∃ out, perform_mutational clock fuel rand_draw e none (some n)
            (some input)
            (perform_mutation mutate try_transform_into evaluate_input
              mutator_post_exec post_post_exec) s = .ok out ∧
          out.executions = s.executions ∧ out.corpus = s.corpus ∧
          out.solutions = s.solutions) := by
  constructor
  · intro s s1 input1 h
    simp [perform_mutation, h]
  · intro hall clock fuel rand_draw e n s
    refine ⟨s, ?_, rfl, rfl, rfl⟩
    simp only [perform_mutational]
    exact iterLoop_fixed _ (fun t => by simp [perform_mutation, hall t input]) n s

/-- Witness for C9: a pure skip-mutator against a counting evaluator; one
`perform_mutation` call returns the state untouched, and a five-iteration
stage leaves executions and both corpora unchanged. -/
theorem C9_skipped_mutation_frame_witness :
    perform_mutation
      (fun (t : FuzzState) (i : Unit) => .ok (MutationResult.skipped, t, i))
      (fun _ _ => .ok ((), ()))
      (fun t _ => .ok ({ t with executions := t.executions + 1 }, true, some 0))
      (fun t _ => .ok t) (fun _ t _ => .ok t) ()
      ⟨7, 0, [1, 2], []⟩ = .ok ⟨7, 0, [1, 2], []⟩ ∧
    ∃ out, perform_mutational (fun _ => 0) 0 0 0 none (some 5) (some ())
        (perform_mutation
          (fun (t : FuzzState) (i : Unit) => .ok (MutationResult.skipped, t, i))
          (fun _ _ => .ok ((), ()))
          (fun t _ => .ok ({ t with executions := t.executions + 1 }, true, some 0))
          (fun t _ => .ok t) (fun _ t _ => .ok t))
        ⟨7, 0, [1, 2], []⟩ = .ok out ∧
      out.executions = (0 : Nat) ∧ out.corpus = [1, 2] ∧ out.solutions = [] := by
  have h := C9_skipped_mutation_frame
    (fun (t : FuzzState) (i : Unit) => .ok (MutationResult.skipped, t, i))
    (fun _ _ => .ok ((), ()))
    (fun t _ => .ok ({ t with executions := t.executions + 1 }, true, some 0))
    (fun t _ => .ok t) (fun _ t _ => .ok t) ()
  refine ⟨h.1 ⟨7, 0, [1, 2], []⟩ ⟨7, 0, [1, 2], []⟩ () rfl, ?_⟩
  simpa using h.2 (fun _ _ => rfl) (fun _ => 0) 0 0 0 5 ⟨7, 0, [1, 2], []⟩

/-- C10: `transforming` (and `new` / `with_name`, which delegate to it)
leaves the named-metadata map untouched — in particular any configured
`iters` / `fuzz_time` — when an entry already exists under the stage
name, and inserts the default metadata (both fields unset) only when no
entry exists. -/
theorem C10_transforming_preserves_existing (m : NamedMetadataMap)
    (name : String) (md : TuneableMutationalStageMetadata) :
    (m.get name = some md →
      TuneableMutationalStage.transforming m name = m ∧
      (TuneableMutationalStage.transforming m name).get name = some md) ∧
    (m.get name = none →
      (TuneableMutationalStage.transforming m name).get name
        = some TuneableMutationalStageMetadata.default) ∧
    TuneableMutationalStage.new m
      = TuneableMutationalStage.transforming m STD_TUNEABLE_MUTATIONAL_STAGE_NAME ∧
    TuneableMutationalStage.with_name m name
      = TuneableMutationalStage.transforming m name := by
  refine ⟨fun h => ?_, fun h => ?_, rfl, rfl⟩
  · constructor <;>
      simp [TuneableMutationalStage.transforming, named_metadata_or_insert_with, h]
  · simp [TuneableMutationalStage.transforming, named_metadata_or_insert_with, h,
      NamedMetadataMap.get]

/-- Witness for C10: a map already holding tuned values under the default
stage name is left unchanged, and an empty map receives the default
metadata. -/
theorem C10_transforming_preserves_existing_witness :
    (TuneableMutationalStage.transforming
        [("TuneableMutationalStage", ⟨some 5, some 7⟩)] "TuneableMutationalStage"
      = [("TuneableMutationalStage", ⟨some 5, some 7⟩)] ∧
      (TuneableMutationalStage.transforming
        [("TuneableMutationalStage", ⟨some 5, some 7⟩)]
        "TuneableMutationalStage").get "TuneableMutationalStage"
      = some ⟨some 5, some 7⟩) ∧
    (TuneableMutationalStage.transforming [] "TuneableMutationalStage").get
        "TuneableMutationalStage"
      = some TuneableMutationalStageMetadata.default :=
  ⟨(C10_transforming_preserves_existing
      [("TuneableMutationalStage", ⟨some 5, some 7⟩)] "TuneableMutationalStage"
      ⟨some 5, some 7⟩).1 rfl,
   (C10_transforming_preserves_existing [] "TuneableMutationalStage"
      ⟨some 5, some 7⟩).2.1 rfl⟩

end LibAFL
